import Mathlib

/-!
Verification of the Approximate_qE approximate query engine.

Shallow embedding of the Python sources:
  * `apps/backend/combined.py` / `apps/backend/loader/sketching.py`
    (parameter derivation, HyperLogLog precision, Count-Min sketch)
  * `apps/backend/loader/sampling.py` (random & reservoir sampling)
  * `apps/backend/flask_api/engine.py` (`calculate_accuracy`, `FastAQE.query`)

Python machine floats are modelled as exact rationals; all inputs exercised
below stay far from binary-rounding boundaries.

The file is organised as: all definitions first, then all lemmas and
theorems.
-/

namespace AQE

/-! ## Definitions -/

/-- Python `max(a, b)`: returns `b` exactly when `a < b`. -/
def pymax {α : Type} [LT α] [DecidableRel (α := α) (· < ·)] (a b : α) : α :=
  if a < b then b else a

/-- Python `min(a, b)`: returns `b` exactly when `b < a`. -/
def pymin {α : Type} [LT α] [DecidableRel (α := α) (· < ·)] (a b : α) : α :=
  if b < a then b else a

/-- Python `int(x)` on a real number: truncation toward zero. -/
def ratTrunc (q : ℚ) : ℤ := if 0 ≤ q then ⌊q⌋ else -⌊-q⌋

/-- Python `int(math.log2 x)` for `x > 0`: `log2` then truncation toward
zero.  For `x ≥ 1` this is `⌊log2 x⌋ = Int.log 2 x`; for `0 < x < 1` it is
`-⌊log2 x⁻¹⌋`. -/
def truncLog2 (x : ℚ) : ℤ := if 1 ≤ x then Int.log 2 x else -(Int.log 2 x⁻¹)

/-- `UnifiedQueryEngine._hyperloglog` / `SketchingQueryEngine._hyperloglog`:
`p = max(4, int(math.log2((1.04 / error_tolerance) ** 2)))`.
(`1.04 = 26/25`.) -/
def hll_p_code (ε : ℚ) : ℤ := pymax 4 (truncLog2 ((26 / 25 / ε) ^ 2))

/-- The precision formula as the spec words it:
`hll_p = clamp(ceil(log2((1.04/ε)^2)), 4, 18)`
(`Int.clog 2 x = ⌈log2 x⌉` for `x ≥ 1`). -/
def hll_p_spec (ε : ℚ) : ℤ := pymin 18 (pymax 4 (Int.clog 2 ((26 / 25 / ε) ^ 2)))

/-- `SamplingQueryEngine._random_sampling` / `UnifiedQueryEngine._sampling_execute`:
`frac = max(0.01, min(1.0, 1 - error_tolerance))`. -/
def sample_frac_code (ε : ℚ) : ℚ := pymax (1 / 100) (pymin 1 (1 - ε))

/-- The sampling fraction as the spec words it:
`sample_fraction = clamp((1.5 / ε^2) / total_rows, 0.001, 1.0)`. -/
def sample_frac_spec (ε : ℚ) (total_rows : ℕ) : ℚ :=
  pymax (1 / 1000) (pymin 1 (3 / 2 / ε ^ 2 / (total_rows : ℚ)))

/-! ### Reservoir sampling (`SamplingQueryEngine._reservoir_sampling`) -/

/-- `_reservoir_sampling` target size:
`k = max(100, int(len(self.df) * (1 - error_tolerance)))`. -/
def reservoir_k (N : ℕ) (ε : ℚ) : ℤ := pymax 100 (ratTrunc ((N : ℚ) * (1 - ε)))

/-- The target size as the claim words it, with `round` in place of the
code's `int` truncation: `k = max(100, round(N * (1 - ε)))`. -/
def reservoir_k_claim (N : ℕ) (ε : ℚ) : ℤ := pymax 100 (round ((N : ℚ) * (1 - ε)))

/-- `reservoir_k` as a natural number (it is always `≥ 100`). -/
def reservoir_kN (N : ℕ) (ε : ℚ) : ℕ := (reservoir_k N ε).toNat

/-- Body of the `_reservoir_sampling` loop for row index `i` (0-based) and
drawn slot `j`: `if i < k: reservoir.append(row)` else
`if j < k: reservoir[j] = row`. -/
def reservoirStep {α : Type} (k : ℕ) (res : List α) (i : ℕ) (row : α) (j : ℕ) :
    List α :=
  if i < k then res ++ [row]
  else if j < k then res.set j row else res

/-- The single pass of `_reservoir_sampling` over the dataset rows.
`tape i` models the library draw `random.randint(0, i)` (Python's global,
unseeded RNG); a valid tape satisfies `tape i ≤ i`. -/
def runReservoir {α : Type} (k : ℕ) (tape : ℕ → ℕ) (rows : List α) : List α :=
  (rows.enum).foldl (fun res p => reservoirStep k res p.1 p.2 (tape p.1)) []

/-- `run_query` on a single-numeric-column dataset routed to
`_reservoir_sampling` and then `_execute_on_sample` with `qtype = "SUM"`:
`k = max(100, int(N*(1-ε)))`, one reservoir pass, `frac = k / N`, and the
returned result is `sample.sum() / frac`. -/
def reservoir_sampling_sum (rows : List ℚ) (ε : ℚ) (tape : ℕ → ℕ) : ℚ :=
  let k := reservoir_kN rows.length ε
  let sample := runReservoir k tape rows
  let frac := (k : ℚ) / (rows.length : ℚ)
  sample.sum / frac

/-- Random tape that always draws slot `i` at row `i` (a valid draw from
`randint(0, i)`). -/
def tapeId : ℕ → ℕ := fun i => i

/-- Random tape that always draws slot `0` (a valid draw from
`randint(0, i)`). -/
def tapeZero : ℕ → ℕ := fun _ => 0

/-- A 102-row single-column dataset with row `i` holding the value `i`. -/
def data102 : List ℚ := (List.range 102).map (fun n => (n : ℚ))

/-- A 50-row single-column dataset with row `i` holding the value `i`. -/
def data50 : List ℚ := (List.range 50).map (fun n => (n : ℚ))

/-! ### Count-Min sketch (`_countmin` in `combined.py` / `sketching.py`) -/

/-- `_countmin` width: `w = max(10, int(2 / error_tolerance))`. -/
def cm_w (ε : ℚ) : ℕ := (pymax 10 (ratTrunc (2 / ε))).toNat

/-- `_countmin` depth: `d = max(5, int(math.log2(1 / error_tolerance)))`. -/
def cm_d (ε : ℚ) : ℕ := (pymax 5 (truncLog2 (1 / ε))).toNat

/-- The Count-Min counter table built by `_countmin`'s update loop: for each
value `v` of the column and each hash row `i < d`, bucket
`hash((v, seed_i)) % w` of row `i` is incremented.  `hashF i v` models
Python's `hash((v, seed))` with `seed = i`; the table is the
`sketch = [defaultdict(int) for _ in range(d)]` array as a function from
(row, bucket) to counter value. -/
def cmBuild {α : Type} (hashF : ℕ → α → ℕ) (w d : ℕ) (col : List α) :
    ℕ → ℕ → ℕ :=
  col.foldl
    (fun tbl v => fun i b =>
      if i < d ∧ hashF i v % w = b then tbl i b + 1 else tbl i b)
    (fun _ _ => 0)

/-- `_countmin` point estimate for a value `v`:
`min(sketch[i][h(v)] for i, h in enumerate(hash_funcs))`, the minimum of the
`d` hashed counters. -/
def cmEstimate {α : Type} (tbl : ℕ → ℕ → ℕ) (hashF : ℕ → α → ℕ) (w d : ℕ)
    (v : α) : ℕ :=
  (((List.range d).map (fun i => tbl i (hashF i v % w))).min?).getD 0

/-! ### `calculate_accuracy` (`flask_api/engine.py`) -/

/-- A Python value handed to `calculate_accuracy`: a number
(`int`/`float`) or a GROUP-BY-style `dict` (association list of
string keys in insertion order). -/
inductive AVal : Type
  | num (q : ℚ)
  | dict (m : List (String × ℚ))

/-- The report returned by `calculate_accuracy`; each constructor is one of
its `return` statements, with the numeric payloads kept exact instead of
`%.4f`-formatted.  The `exact == 0 == approx` branch returns the literal
string `"100.0000% (Error: 0.0000%)"`, embedded as `scalarReport 100 0`. -/
inductive Report : Type
  | avgRelError (e : ℚ)
  | naEmptyExact
  | naNoValidGroups
  | scalarReport (acc err : ℚ)
  | naExactZero
  | calcFailed
  deriving DecidableEq

/-- The `for key, exact_val in exact.items()` loop of `calculate_accuracy`:
zero `exact_val`s are skipped; otherwise `approx.get(key, 0)` is read —
an `AttributeError` (caught, giving the `Calculation Failed` return) when
`approx` is a number rather than a dict — and the relative error is
accumulated.  After the loop: `N/A` when no group was counted, else the
mean. -/
def dictLoop (approx : AVal) : List (String × ℚ) → ℚ → ℕ → Report
  | [], _, 0 => .naNoValidGroups
  | [], total, (n + 1) => .avgRelError (total / (n + 1 : ℕ))
  | (k, ev) :: rest, total, n =>
      if ev = 0 then dictLoop approx rest total n
      else
        match approx with
        | .num _ => .calcFailed
        | .dict am =>
            dictLoop (.dict am) rest
              (total + |(am.lookup k).getD 0 - ev| / |ev|) (n + 1)

/-- `calculate_accuracy(approx, exact)` from `flask_api/engine.py`.
`exact` is dispatched on `isinstance(exact, dict)` first, then
`isinstance(exact, (int, float))`.  In the scalar branch with
`exact == 0`, a dict `approx` compares unequal to `0` and falls through to
the `N/A (Exact result is 0)` return; with `exact ≠ 0`,
`abs(approx - exact)` on a dict raises a `TypeError` caught by the
surrounding `except`. -/
def calculate_accuracy (approx exact : AVal) : Report :=
  match exact with
  | .dict m => if m.isEmpty then .naEmptyExact else dictLoop approx m 0 0
  | .num e =>
      if e = 0 then
        match approx with
        | .num a => if a = 0 then .scalarReport 100 0 else .naExactZero
        | .dict _ => .naExactZero
      else
        match approx with
        | .dict _ => .calcFailed
        | .num a => .scalarReport (100 * (1 - |a - e| / |e|)) (|a - e| / |e|)

/-- The entries of a mapping whose (exact) value is nonzero — the keys the
dict branch of `calculate_accuracy` does not skip. -/
def nzFilter (em : List (String × ℚ)) : List (String × ℚ) :=
  em.filter (fun p => p.2 ≠ 0)

/-- The dict-branch result as the spec words it: the mean of the relative
errors `|approx[key] (default 0) - exact[key]| / |exact[key]|` over exactly
the keys of `exact` with nonzero value. -/
def specMeanRelError (am em : List (String × ℚ)) : ℚ :=
  ((nzFilter em).map (fun p => |(am.lookup p.1).getD 0 - p.2| / |p.2|)).sum
    / ((nzFilter em).length : ℕ)

/-! ### `FastAQE.query` (`flask_api/engine.py`)

The two sketch libraries (`datasketches` `hll_sketch` / `kll_floats_sketch`)
are external; a sketch is embedded as the interface `query` observes: its
`get_estimate`/`get_upper_bound` values, resp. its `get_quantile` function
(which, being a library call, may raise — `Except`).  Explanation strings
keep the source's leading text but drop the interpolated statistics. -/

/-- An HLL sketch as `query` observes it: `get_estimate()` and
`get_upper_bound(1)` on the immutable sketch built at fit time. -/
structure HLLSketch : Type where
  estimate : ℚ
  upperBound : ℚ

/-- A KLL sketch as `query` observes it: `get_quantile(q)`, a library call
that may raise (e.g. for a rank outside `[0, 1]`). -/
structure KLLSketch : Type where
  quantile : ℚ → Except String ℚ

/-- A freshly constructed, empty `hll_sketch(p)` (the `defaultdict`
default): it estimates 0. -/
def freshHLL (_p : ℕ) : HLLSketch := ⟨0, 0⟩

/-- A freshly constructed, empty `kll_floats_sketch(k=k)` (the
`defaultdict` default): `get_quantile` raises on an empty sketch. -/
def freshKLL (_k : ℕ) : KLLSketch :=
  ⟨fun _ => .error "operation is undefined for an empty sketch"⟩

/-- A cell of the sample table: numeric or categorical. -/
inductive Cell : Type
  | num (q : ℚ)
  | str (s : String)
  deriving DecidableEq

/-- A sample-table row: a mapping from column name to cell. -/
def Row : Type := List (String × Cell)

/-- `FastAQE`'s state after `fit`: `sample_frac`, `total_rows`,
`sample_df`, the two `defaultdict` sketch collections (association lists in
insertion order), `kll_k` and `hll_p`. -/
structure EngineState : Type where
  sample_frac : ℚ
  total_rows : ℕ
  sample_df : List Row
  hll_sketches : List (String × HLLSketch)
  kll_sketches : List (String × KLLSketch)
  kll_k : ℕ
  hll_p : ℕ

/-- Python `defaultdict` subscript `d[k]`: returns the stored value, or
inserts the `default` and returns it when `k` is absent. -/
def ddGet {β : Type} (d : List (String × β)) (k : String) (default : β) :
    List (String × β) × β :=
  match d.lookup k with
  | some v => (d, v)
  | none => (d ++ [(k, default)], default)

/-- The value part of a successful query result: scalar or GROUP-BY dict. -/
inductive QVal : Type
  | num (q : ℚ)
  | dict (m : List (Cell × ℚ))
  deriving DecidableEq

/-- The `estimated_error` field: numeric bound or textual descriptor. -/
inductive ErrBound : Type
  | num (q : ℚ)
  | txt (s : String)
  deriving DecidableEq

/-- How a call to `FastAQE.query` ends: the success dict (`approx_result`,
`estimated_error`, `explanation`), the `except` branch's error dict
(`error` + `explanation`), or an exception escaping `query` itself (raised
before the `try` block, e.g. `parts[0]` on an empty list). -/
inductive Outcome : Type
  | ok (result : QVal) (errorBound : ErrBound) (explanation : String)
  | errDict (error : String) (explanation : String)
  | raised (error : String)
  deriving DecidableEq

/-- `q_str.strip().upper().split()`: uppercase, then split on whitespace
runs, discarding empty pieces. -/
def tokenizeAux : List Char → List Char → List String
  | [], acc => if acc.isEmpty then [] else [String.mk acc.reverse]
  | c :: cs, acc =>
      if c.isWhitespace then
        if acc.isEmpty then tokenizeAux cs []
        else String.mk acc.reverse :: tokenizeAux cs []
      else tokenizeAux cs (c.toUpper :: acc)

/-- See `tokenizeAux`. -/
def tokenize (q : String) : List String := tokenizeAux q.toList []

/-- Python `str.lower()`. -/
def lowerStr (s : String) : String := String.mk (s.toList.map Char.toLower)

/-- Digit run to number, `none` on a non-digit (empty gives 0; callers
guard emptiness). -/
def digitsToNat? (l : List Char) : Option ℕ :=
  l.foldlM (fun acc c => if c.isDigit then some (10 * acc + (c.toNat - 48)) else none) 0

/-- Split a char list at the first dot, if any. -/
def splitDot (l : List Char) : List Char × Option (List Char) :=
  match l.span (fun c => c ≠ '.') with
  | (ip, []) => (ip, none)
  | (ip, _ :: rest) => (ip, some rest)

/-- Python `float(s)` on the plain decimal literals the query grammar uses:
optional sign, digits, optional single dot.  `none` models the
`ValueError` (caught by `query`'s `except`) on anything else. -/
def parseDecimal (s : String) : Option ℚ :=
  let signed : ℚ × List Char :=
    match s.toList with
    | '-' :: cs => (-1, cs)
    | '+' :: cs => (1, cs)
    | cs => (1, cs)
  match splitDot signed.2 with
  | (ip, none) =>
      if ip.isEmpty then none
      else (digitsToNat? ip).map (fun n => signed.1 * n)
  | (ip, some fp) =>
      if ip.isEmpty && fp.isEmpty then none
      else
        match digitsToNat? ip, digitsToNat? fp with
        | some i, some f => some (signed.1 * (i + (f : ℚ) / 10 ^ fp.length))
        | _, _ => none

/-- The `except Exception as e` branch of `query`: every exception raised
inside the `try` block becomes `{"error": str(e), "explanation": ...}`. -/
def errOut (st : EngineState) (e : String) : EngineState × Outcome :=
  (st, .errDict e ("Query Failed: the query could not be executed. Error: " ++ e))

/-- `sample_agg = self.sample_df.groupby(group_col)[col_to_sum].sum()`:
per-group sums of the sample table, keys in first-appearance order; `none`
models the `KeyError`/`TypeError` pandas raises when a column is missing or
the summed column is not numeric. -/
def groupbySum (rows : List Row) (group_col col_to_sum : String) :
    Option (List (Cell × ℚ)) :=
  match rows.mapM (fun r =>
      match r.lookup group_col, r.lookup col_to_sum with
      | some gk, some (.num q) => some (gk, q)
      | _, _ => none) with
  | none => none
  | some pairs =>
      let keys := (pairs.map Prod.fst).dedup
      some (keys.map (fun gk =>
        (gk, ((pairs.filter (fun p => p.1 = gk)).map Prod.snd).sum)))

/-- The success tail of Query Path 1, applied to the `defaultdict` access
result `p`: `result = sketch.get_estimate()`,
`error_bound = sketch.get_upper_bound(1) - result`. -/
def countDistinctAnswer (st : EngineState) (col : String)
    (p : List (String × HLLSketch) × HLLSketch) : EngineState × Outcome :=
  ({ st with hll_sketches := p.1 },
    .ok (.num p.2.estimate) (.num (p.2.upperBound - p.2.estimate))
      ("Query Parsed: COUNT DISTINCT on column " ++ col ++
       ". Routing Decision: Query routed to the pre-built HyperLogLog (HLL) sketch."))

/-- Query Path 1 body (`COUNT DISTINCT`): `col = parts[2].lower()`;
raise unless `col` has an HLL sketch; read the `defaultdict`; answer from
the sketch. -/
def countDistinctPath (st : EngineState) (parts : List String) :
    EngineState × Outcome :=
  match parts[2]? with
  | none => errOut st "list index out of range"
  | some t2 =>
      match st.hll_sketches.lookup (lowerStr t2) with
      | none => errOut st ("No HLL sketch was built for column: " ++ lowerStr t2)
      | some _ =>
          countDistinctAnswer st (lowerStr t2)
            (ddGet st.hll_sketches (lowerStr t2) (freshHLL st.hll_p))

/-- Query Path 2 body (`SUM ... GROUP BY`) after reading the two column
tokens: group the sample, sum per group, divide by `sample_frac`. -/
def sumGroupByPath (st : EngineState) (col_to_sum group_col : String) :
    EngineState × Outcome :=
  match groupbySum st.sample_df group_col col_to_sum with
  | none => errOut st "KeyError"
  | some agg =>
      (st, .ok (.dict (agg.map (fun p => (p.1, p.2 / st.sample_frac))))
        (.txt "Error proportional to 1/sqrt(sample_size_per_group)")
        ("Query Parsed: SUM(" ++ col_to_sum ++ ") GROUP BY " ++ group_col ++
         ". Routing Decision: Query routed to the Stratified Sample Table."))

/-- Query Path 2: `col_to_sum = parts[1].lower()`,
`group_col = parts[4].lower()` — read without checking that tokens 3 and 4
are literally `GROUP BY`. -/
def sumGroupByBranch (st : EngineState) (parts : List String) :
    EngineState × Outcome :=
  match parts[1]?, parts[4]? with
  | some t1, some t4 => sumGroupByPath st (lowerStr t1) (lowerStr t4)
  | _, _ => errOut st "list index out of range"

/-- The textual `error_bound` of the KLL paths
(`kll_floats_sketch.get_normalized_rank_error(kll_k, False)`). -/
def kllRankErrTxt : String := "Approx. rank error determined by kll_k"

/-- The tail of Query Paths 3 and 4 after the `defaultdict` access `p`:
`result = sketch.get_quantile(q)`; a library exception is caught by the
`except` branch. -/
def kllAnswer (st : EngineState) (expl : String)
    (p : List (String × KLLSketch) × KLLSketch) (qv : ℚ) :
    EngineState × Outcome :=
  match p.2.quantile qv with
  | .ok v => ({ st with kll_sketches := p.1 }, .ok (.num v) (.txt kllRankErrTxt) expl)
  | .error e =>
      ({ st with kll_sketches := p.1 },
        .errDict e ("Query Failed: the query could not be executed. Error: " ++ e))

/-- Common part of Query Paths 3 and 4: raise unless `col` has a KLL
sketch; read the `defaultdict`; query the sketch at `q` — with no
validation of `q` against `[0, 1]`. -/
def kllQuantilePath (st : EngineState) (col : String) (qv : ℚ) (expl : String) :
    EngineState × Outcome :=
  match st.kll_sketches.lookup col with
  | none => errOut st ("No KLL sketch was built for numeric column: " ++ col)
  | some _ =>
      kllAnswer st expl (ddGet st.kll_sketches col (freshKLL st.kll_k)) qv

/-- Query Path 3 (`MEDIAN`): `col = parts[1].lower()`, quantile `0.5`. -/
def medianBranch (st : EngineState) (parts : List String) :
    EngineState × Outcome :=
  match parts[1]? with
  | none => errOut st "list index out of range"
  | some t1 =>
      kllQuantilePath st (lowerStr t1) (1 / 2)
        ("Query Parsed: MEDIAN (50th percentile) on column " ++ lowerStr t1 ++
         ". Routing Decision: Query routed to the pre-built KLL (Quantile) sketch.")

/-- Query Path 4 (`QUANTILE`): arity check, `col = parts[1].lower()`,
`quantile = float(parts[2])` — parsed as a number but not range-checked. -/
def quantileBranch (st : EngineState) (parts : List String) :
    EngineState × Outcome :=
  if parts.length < 3 then
    errOut st "QUANTILE query missing value. Must be QUANTILE col 0.xx"
  else
    match parts[1]?, parts[2]? with
    | some t1, some t2 =>
        match parseDecimal t2 with
        | none => errOut st ("could not convert string to float: " ++ t2)
        | some qv =>
            kllQuantilePath st (lowerStr t1) qv
              ("Query Parsed: QUANTILE on column " ++ lowerStr t1 ++
               ". Routing Decision: Query routed to the pre-built KLL (Quantile) sketch.")
    | _, _ => errOut st "list index out of range"

/-- `FastAQE.query` after tokenization.  `parts[0]` is read *before* the
`try` block, so an empty token list raises out of `query`; every other
path returns a dict. -/
def queryTokens (st : EngineState) : List String → EngineState × Outcome
  | [] => (st, .raised "IndexError: list index out of range")
  | q_type :: rest =>
      if q_type = "COUNT" ∧ 1 < (q_type :: rest).length
          ∧ (q_type :: rest)[1]? = some "DISTINCT" then
        countDistinctPath st (q_type :: rest)
      else if q_type = "SUM" ∧ "GROUP" ∈ q_type :: rest ∧ "BY" ∈ q_type :: rest then
        sumGroupByBranch st (q_type :: rest)
      else if q_type = "MEDIAN" then
        medianBranch st (q_type :: rest)
      else if q_type = "QUANTILE" then
        quantileBranch st (q_type :: rest)
      else
        errOut st ("Unsupported query type: " ++ q_type)

/-- `FastAQE.query(q_str)`: tokenize, then route. -/
def FastAQE_query (st : EngineState) (q : String) : EngineState × Outcome :=
  queryTokens st (tokenize q)

/-- A KLL sketch exhibiting the `datasketches` library behaviour: raises
for a rank outside `[0, 1]`, answers otherwise (here with the identity
map, enough to observe routing). -/
def demoKLL : KLLSketch :=
  ⟨fun q => if 0 ≤ q ∧ q ≤ 1 then .ok q
    else .error "normalized rank cannot be outside the interval [0, 1]"⟩

/-- A KLL sketch whose `get_quantile` never raises: any total map is a
legitimate collaborator from the router's point of view. -/
def demoKLLTotal : KLLSketch := ⟨fun q => .ok q⟩

/-- A small fitted engine: one dimension column `category`, one numeric
column `amount`. -/
def demoEngine : EngineState where
  sample_frac := 1 / 100
  total_rows := 1000
  sample_df := [[("category", .str "A"), ("amount", .num 10)],
                [("category", .str "B"), ("amount", .num 20)]]
  hll_sketches := [("category", ⟨2, 21 / 10⟩)]
  kll_sketches := [("amount", demoKLL)]
  kll_k := 256
  hll_p := 14

/-- `demoEngine` with the never-raising quantile sketch. -/
def demoEngineTotal : EngineState :=
  { demoEngine with kll_sketches := [("amount", demoKLLTotal)] }

/-! ## Lemmas and theorems -/

lemma pymax_eq_max {α : Type} [LinearOrder α] (a b : α) : pymax a b = max a b := by
  unfold pymax
  split
  · exact (max_eq_right (le_of_lt (by assumption))).symm
  · exact (max_eq_left (not_lt.mp (by assumption))).symm

lemma pymin_eq_min {α : Type} [LinearOrder α] (a b : α) : pymin a b = min a b := by
  unfold pymin
  split
  · exact (min_eq_right (le_of_lt (by assumption))).symm
  · exact (min_eq_left (not_lt.mp (by assumption))).symm

lemma int_log2_eq_of (n : ℕ) {q : ℚ} (hq : 0 < q) (h1 : (2 : ℚ) ^ n ≤ q)
    (h2 : q < (2 : ℚ) ^ (n + 1)) : Int.log 2 q = n := by
  have h1' : (2 : ℚ) ^ (n : ℤ) ≤ q := by rwa [zpow_natCast]
  have h2' : q < (2 : ℚ) ^ ((n : ℤ) + 1) := by
    have : ((n : ℤ) + 1) = ((n + 1 : ℕ) : ℤ) := by push_cast; ring
    rw [this, zpow_natCast]; exact h2
  exact le_antisymm
    (Int.lt_add_one_iff.mp ((Int.lt_zpow_iff_log_lt (by norm_num) hq).mp h2'))
    ((Int.zpow_le_iff_le_log (by norm_num) hq).mp h1')

lemma int_clog2_eq_of (n : ℕ) {q : ℚ} (hq : 0 < q) (h1 : (2 : ℚ) ^ n < q)
    (h2 : q ≤ (2 : ℚ) ^ (n + 1)) : Int.clog 2 q = n + 1 := by
  have h1' : (2 : ℚ) ^ (n : ℤ) < q := by rwa [zpow_natCast]
  have h2' : q ≤ (2 : ℚ) ^ ((n : ℤ) + 1) := by
    have : ((n : ℤ) + 1) = ((n + 1 : ℕ) : ℤ) := by push_cast; ring
    rw [this, zpow_natCast]; exact h2
  exact le_antisymm
    ((Int.le_zpow_iff_clog_le (by norm_num) hq).mp h2')
    (Int.add_one_le_iff.mpr ((Int.zpow_lt_iff_lt_clog (by norm_num) hq).mp h1'))

lemma truncLog2_eq_of (n : ℕ) {q : ℚ} (h1 : (2 : ℚ) ^ n ≤ q)
    (h2 : q < (2 : ℚ) ^ (n + 1)) : truncLog2 q = n := by
  have hq1 : (1 : ℚ) ≤ q := le_trans (one_le_pow₀ (by norm_num)) h1
  rw [truncLog2, if_pos hq1]
  exact int_log2_eq_of n (lt_of_lt_of_le one_pos hq1) h1 h2

/-- C2, counterexample.  At `ε = 0.001` (inside the claimed range
`[0.001, 0.10]`) the code's precision `max(4, int(log2((1.04/ε)^2)))`
evaluates to `20`, while the claimed `clamp(ceil(log2((1.04/ε)^2)), 4, 18)`
evaluates to `18`; in particular the code's value violates `hll_p ≤ 18`. -/
theorem hll_p_clamp_counterexample :
    hll_p_code (1 / 1000) = 20 ∧ hll_p_spec (1 / 1000) = 18 ∧
    hll_p_code (1 / 1000) ≠ hll_p_spec (1 / 1000) ∧ ¬ hll_p_code (1 / 1000) ≤ 18 := by
  have hx : ((26 / 25 / (1 / 1000) : ℚ)) ^ 2 = 1081600 := by norm_num
  have hlog : truncLog2 ((26 / 25 / (1 / 1000) : ℚ) ^ 2) = 20 := by
    rw [hx]; exact truncLog2_eq_of 20 (by norm_num) (by norm_num)
  have hclog : Int.clog 2 ((26 / 25 / (1 / 1000) : ℚ) ^ 2) = 21 := by
    rw [hx]; exact int_clog2_eq_of 20 (by norm_num) (by norm_num) (by norm_num)
  have hc : hll_p_code (1 / 1000) = 20 := by rw [hll_p_code, hlog]; decide
  have hs : hll_p_spec (1 / 1000) = 18 := by rw [hll_p_spec, hclog]; decide
  exact ⟨hc, hs, by rw [hc, hs]; decide, by rw [hc]; decide⟩

/-- C2, amended.  The cardinality-sketch precision derived from `ε` is
`max(4, int(log2((1.04/ε)^2)))` — truncation rather than `ceil` and no upper
clamp at `18` — so for every `ε ∈ [0.001, 0.10]` it satisfies
`4 ≤ hll_p ≤ 20` (the value `20`, above the claimed cap `18`, is attained at
`ε = 0.001`). -/
theorem hll_p_code_bounds (ε : ℚ) (h1 : 1 / 1000 ≤ ε) (h2 : ε ≤ 1 / 10) :
    4 ≤ hll_p_code ε ∧ hll_p_code ε ≤ 20 := by
  have hε : 0 < ε := lt_of_lt_of_le (by norm_num) h1
  have ht1 : (1 : ℚ) ≤ 26 / 25 / ε := by rw [le_div_iff₀ hε]; linarith
  have hx1 : (1 : ℚ) ≤ (26 / 25 / ε) ^ 2 := one_le_pow₀ ht1
  have hble : (26 / 25 / ε : ℚ) ≤ 1040 := by rw [div_le_iff₀ hε]; nlinarith
  have hx : ((26 / 25 / ε : ℚ)) ^ 2 ≤ 1081600 := by nlinarith
  have hmono : Int.log 2 ((26 / 25 / ε : ℚ) ^ 2) ≤ 20 := by
    calc Int.log 2 ((26 / 25 / ε : ℚ) ^ 2) ≤ Int.log 2 ((1081600 : ℚ)) :=
          Int.log_mono_right (lt_of_lt_of_le one_pos hx1) hx
      _ = 20 := int_log2_eq_of 20 (by norm_num) (by norm_num) (by norm_num)
  rw [hll_p_code, truncLog2, if_pos hx1, pymax_eq_max]
  exact ⟨le_max_left _ _, max_le (by norm_num) hmono⟩

/-- Witness for `hll_p_code_bounds` at `ε = 0.05`. -/
theorem hll_p_code_bounds_witness :
    (1 / 1000 : ℚ) ≤ 1 / 20 ∧ (1 / 20 : ℚ) ≤ 1 / 10 ∧
    4 ≤ hll_p_code (1 / 20) ∧ hll_p_code (1 / 20) ≤ 20 :=
  ⟨by norm_num, by norm_num,
    (hll_p_code_bounds (1 / 20) (by norm_num) (by norm_num)).1,
    (hll_p_code_bounds (1 / 20) (by norm_num) (by norm_num)).2⟩

/-- C3, counterexample.  At `ε = 0.05` and `total_rows = 1000000` the code's
sampling fraction `max(0.01, min(1.0, 1 - ε))` is `0.95`, while the claimed
`clamp((1.5/ε^2)/total_rows, 0.001, 1.0) = clamp(0.0006, 0.001, 1.0)` is
`0.001`; the two formulas disagree. -/
theorem sample_frac_formula_counterexample :
    sample_frac_code (1 / 20) = 19 / 20 ∧
    sample_frac_spec (1 / 20) 1000000 = 1 / 1000 ∧
    sample_frac_code (1 / 20) ≠ sample_frac_spec (1 / 20) 1000000 := by
  set_option maxRecDepth 4000 in refine ⟨?_, ?_, ?_⟩ <;> with_unfolding_all decide

/-- C3, amended.  The sampling fraction used for sample-based queries is
`max(0.01, min(1.0, 1 - ε))`, independent of `total_rows`; for every
`ε ∈ [0.001, 0.10]` it equals `1 - ε` and lies in `[0.9, 1.0]`
(hence also in the claimed `[0.001, 1.0]`). -/
theorem sample_frac_code_characterization (ε : ℚ) (h1 : 1 / 1000 ≤ ε)
    (h2 : ε ≤ 1 / 10) :
    sample_frac_code ε = 1 - ε ∧ 9 / 10 ≤ sample_frac_code ε ∧
    sample_frac_code ε ≤ 1 := by
  have heq : sample_frac_code ε = 1 - ε := by
    rw [sample_frac_code, pymin_eq_min, pymax_eq_max,
      min_eq_right (by linarith), max_eq_right (by linarith)]
  exact ⟨heq, by rw [heq]; linarith, by rw [heq]; linarith⟩

/-- Witness for `sample_frac_code_characterization` at `ε = 0.05`. -/
theorem sample_frac_code_characterization_witness :
    (1 / 1000 : ℚ) ≤ 1 / 20 ∧ (1 / 20 : ℚ) ≤ 1 / 10 ∧
    sample_frac_code (1 / 20) = 1 - 1 / 20 :=
  ⟨by norm_num, by norm_num,
    (sample_frac_code_characterization (1 / 20) (by norm_num) (by norm_num)).1⟩

lemma runReservoir_go_length {α : Type} (k : ℕ) (tape : ℕ → ℕ) (l : List α) :
    ∀ (n : ℕ) (res : List α), res.length = min k n →
      ((List.enumFrom n l).foldl
        (fun res p => reservoirStep k res p.1 p.2 (tape p.1)) res).length
        = min k (n + l.length) := by
  induction l with
  | nil => intro n res h; simpa using h
  | cons a l ih =>
      intro n res h
      simp only [List.enumFrom, List.foldl_cons, List.length_cons]
      have hstep : (reservoirStep k res n a (tape n)).length = min k (n + 1) := by
        unfold reservoirStep
        split
        · simp only [List.length_append, List.length_singleton, h]; omega
        · split
          · rw [List.length_set, h]; omega
          · rw [h]; omega
      rw [ih (n + 1) _ hstep]
      omega

/-- The reservoir always holds `min k N` rows after the single pass. -/
lemma runReservoir_length {α : Type} (k : ℕ) (tape : ℕ → ℕ) (rows : List α) :
    (runReservoir k tape rows).length = min k rows.length := by
  unfold runReservoir
  rw [List.enum]
  simpa using runReservoir_go_length k tape rows 0 [] (by simp)

lemma runReservoir_go_tape_indep {α : Type} (k : ℕ) (t1 t2 : ℕ → ℕ) (l : List α) :
    ∀ (n : ℕ) (res : List α), n + l.length ≤ k →
      (List.enumFrom n l).foldl (fun res p => reservoirStep k res p.1 p.2 (t1 p.1)) res
        = (List.enumFrom n l).foldl (fun res p => reservoirStep k res p.1 p.2 (t2 p.1)) res := by
  induction l with
  | nil => intro n res _; rfl
  | cons a l ih =>
      intro n res h
      simp only [List.length_cons] at h
      simp only [List.enumFrom, List.foldl_cons]
      have hn : n < k := by omega
      have hstep : ∀ j, reservoirStep k res n a j = res ++ [a] := fun j => by
        unfold reservoirStep; rw [if_pos hn]
      rw [hstep (t1 n), hstep (t2 n)]
      exact ih (n + 1) (res ++ [a]) (by omega)

lemma runReservoir_tape_indep {α : Type} (k : ℕ) (t1 t2 : ℕ → ℕ) (rows : List α)
    (h : rows.length ≤ k) : runReservoir k t1 rows = runReservoir k t2 rows := by
  unfold runReservoir
  rw [List.enum]
  exact runReservoir_go_tape_indep k t1 t2 rows 0 [] (by simpa using h)

/-- C4, counterexample.  The code computes the reservoir target size with
`int` truncation, not `round`: at `N = 1000`, `ε = 0.0301` we get
`N*(1-ε) = 969.9`, so the code's `k` is `969` while the claimed
`max(100, round(N*(1-ε)))` is `970`. -/
theorem reservoir_k_round_counterexample :
    reservoir_k 1000 (301 / 10000) = 969 ∧
    reservoir_k_claim 1000 (301 / 10000) = 970 ∧
    reservoir_k 1000 (301 / 10000) ≠ reservoir_k_claim 1000 (301 / 10000) := by
  refine ⟨?_, ?_, ?_⟩ <;> with_unfolding_all decide

/-- C4, amended.  Reservoir sampling uses target size
`k = max(100, int(N*(1-ε)))` (truncation, not `round`) and runs the single
pass described by the claim (insert directly while `i < k`, otherwise
replace slot `j ∈ [0, i]` only when `j < k`); whenever `k < N` the resulting
sample contains exactly `k` rows, for every random tape. -/
theorem reservoir_exact_k_rows {α : Type} (rows : List α) (ε : ℚ) (tape : ℕ → ℕ)
    (hk : reservoir_kN rows.length ε < rows.length) :
    (runReservoir (reservoir_kN rows.length ε) tape rows).length
      = reservoir_kN rows.length ε := by
  rw [runReservoir_length]; omega

/-- Witness for `reservoir_exact_k_rows` on a 102-row dataset with
`ε = 0.5`, where `k = max(100, 51) = 100 < 102`. -/
theorem reservoir_exact_k_rows_witness :
    reservoir_kN data102.length (1 / 2) < data102.length ∧
    (runReservoir (reservoir_kN data102.length (1 / 2)) tapeZero data102).length
      = reservoir_kN data102.length (1 / 2) :=
  ⟨by with_unfolding_all decide,
   reservoir_exact_k_rows data102 (1 / 2) tapeZero (by with_unfolding_all decide)⟩

/-- C9, counterexample.  `_reservoir_sampling` draws `random.randint(0, i)`
from Python's global, unseeded RNG, so two runs of the same
reservoir-routed SUM query on the same dataset with the same tolerance can
return different results: on a 102-row dataset with `ε = 0.05`
(`k = 100 < 102`) the valid draw sequences `tapeId` and `tapeZero` yield
different extrapolated sums. -/
theorem reservoir_sum_nondeterministic :
    tapeId 100 ≤ 100 ∧ tapeZero 100 ≤ 100 ∧ tapeId 101 ≤ 101 ∧ tapeZero 101 ≤ 101 ∧
    reservoir_sampling_sum data102 (1 / 20) tapeId
      ≠ reservoir_sampling_sum data102 (1 / 20) tapeZero := by
  refine ⟨by decide, by decide, by decide, by decide, ?_⟩
  set_option maxRecDepth 100000 in with_unfolding_all decide

/-- C9, amended.  Query evaluation is deterministic for a fixed draw
sequence, and the non-reservoir sampling strategies fix their seeds
(`random_state=42`/`43`); but the reservoir strategy reads the global
unseeded RNG, so run-to-run determinism fails when `k < N`.  When the
reservoir covers the whole dataset (`N ≤ k`) the reservoir-routed SUM query
is independent of the draws. -/
theorem reservoir_sum_tape_independent (rows : List ℚ) (ε : ℚ) (t1 t2 : ℕ → ℕ)
    (h : rows.length ≤ reservoir_kN rows.length ε) :
    reservoir_sampling_sum rows ε t1 = reservoir_sampling_sum rows ε t2 := by
  simp only [reservoir_sampling_sum]
  rw [runReservoir_tape_indep _ t1 t2 rows h]

/-- Witness for `reservoir_sum_tape_independent` on a 50-row dataset with
`ε = 0.05`, where `k = max(100, 47) = 100 ≥ 50`. -/
theorem reservoir_sum_tape_independent_witness :
    data50.length ≤ reservoir_kN data50.length (1 / 20) ∧
    reservoir_sampling_sum data50 (1 / 20) tapeId
      = reservoir_sampling_sum data50 (1 / 20) tapeZero :=
  ⟨by with_unfolding_all decide,
   reservoir_sum_tape_independent data50 (1 / 20) tapeId tapeZero
     (by with_unfolding_all decide)⟩

lemma foldl_min_ge {c : ℕ} : ∀ (l : List ℕ) (a : ℕ), c ≤ a → (∀ x ∈ l, c ≤ x) →
    c ≤ l.foldl min a := by
  intro l
  induction l with
  | nil => intro a ha _; exact ha
  | cons x l ih =>
      intro a ha hl
      exact ih (min a x) (le_min ha (hl x (List.mem_cons_self x l)))
        (fun y hy => hl y (List.mem_cons_of_mem x hy))

lemma min?_getD_ge {c : ℕ} (l : List ℕ) (hne : l ≠ []) (h : ∀ x ∈ l, c ≤ x) :
    c ≤ (l.min?).getD 0 := by
  cases l with
  | nil => exact absurd rfl hne
  | cons a l =>
      simp only [List.min?, Option.getD_some]
      exact foldl_min_ge l a (h a (List.mem_cons_self a l))
        (fun y hy => h y (List.mem_cons_of_mem a hy))

lemma cmBuild_go_count {α : Type} (hashF : ℕ → α → ℕ) (w d : ℕ) (i b : ℕ)
    (hi : i < d) :
    ∀ (col : List α) (t0 : ℕ → ℕ → ℕ),
      (col.foldl
        (fun tbl v => fun j c =>
          if j < d ∧ hashF j v % w = c then tbl j c + 1 else tbl j c) t0) i b
        = t0 i b + col.countP (fun v => hashF i v % w == b) := by
  intro col
  induction col with
  | nil => intro t0; simp
  | cons v col ih =>
      intro t0
      simp only [List.foldl_cons, List.countP_cons]
      rw [ih]
      by_cases h : hashF i v % w = b
      · simp [h, hi]; omega
      · simp [h, hi]

/-- Each counter indexed by a hash of `v` dominates the number of
occurrences of every value hashing to that bucket. -/
lemma cmBuild_count {α : Type} (hashF : ℕ → α → ℕ) (w d : ℕ) (col : List α)
    (i b : ℕ) (hi : i < d) :
    cmBuild hashF w d col i b = col.countP (fun v => hashF i v % w == b) := by
  unfold cmBuild
  rw [cmBuild_go_count hashF w d i b hi col]
  omega

lemma cm_d_pos (ε : ℚ) : 0 < cm_d ε := by
  unfold cm_d
  have h5 : (5 : ℤ) ≤ pymax 5 (truncLog2 (1 / ε)) := by
    rw [pymax_eq_max]; exact le_max_left _ _
  omega

/-- C5.  For every column and every value occurring in it, the Count-Min
point estimate — the minimum over the `d` hashed counters — is at least the
value's true occurrence count, for every hash family and every tolerance:
the sketch always over-estimates and never under-estimates. -/
theorem countmin_overestimates {α : Type} [DecidableEq α] (hashF : ℕ → α → ℕ)
    (ε : ℚ) (col : List α) (v : α) (hv : v ∈ col) :
    col.count v ≤
      cmEstimate (cmBuild hashF (cm_w ε) (cm_d ε) col) hashF (cm_w ε) (cm_d ε) v := by
  have hd : 0 < cm_d ε := cm_d_pos ε
  unfold cmEstimate
  apply min?_getD_ge
  · simp only [ne_eq, List.map_eq_nil_iff, List.range_eq_nil]
    omega
  · intro x hx
    simp only [List.mem_map, List.mem_range] at hx
    obtain ⟨i, hi, rfl⟩ := hx
    rw [cmBuild_count hashF (cm_w ε) (cm_d ε) col i _ hi]
    rw [List.count]
    apply List.countP_mono_left
    intro a _ hav
    have : a = v := by simpa using hav
    subst this
    simp

/-- Witness for `countmin_overestimates`: value `3` occurs twice in the
column `[3, 3, 5]` and its estimate dominates that count. -/
theorem countmin_overestimates_witness :
    (3 : ℕ) ∈ [3, 3, 5] ∧
    List.count 3 [3, 3, 5] ≤
      cmEstimate (cmBuild (fun s x => x + s) (cm_w (1 / 20)) (cm_d (1 / 20)) [3, 3, 5])
        (fun s x => x + s) (cm_w (1 / 20)) (cm_d (1 / 20)) 3 :=
  ⟨by decide, countmin_overestimates (fun s x => x + s) (1 / 20) [3, 3, 5] 3 (by decide)⟩

lemma nzFilter_cons_zero (k : String) (rest : List (String × ℚ)) :
    nzFilter ((k, (0 : ℚ)) :: rest) = nzFilter rest := by
  simp [nzFilter]

lemma nzFilter_cons_ne (k : String) (ev : ℚ) (rest : List (String × ℚ))
    (h : ev ≠ 0) : nzFilter ((k, ev) :: rest) = (k, ev) :: nzFilter rest := by
  simp [nzFilter, List.filter_cons, h]

lemma dictLoop_eq (am : List (String × ℚ)) :
    ∀ (m : List (String × ℚ)) (total : ℚ) (n : ℕ),
      dictLoop (.dict am) m total n =
        if n + (nzFilter m).length = 0 then .naNoValidGroups
        else .avgRelError
          ((total + ((nzFilter m).map
              (fun p => |(am.lookup p.1).getD 0 - p.2| / |p.2|)).sum)
            / ((n + (nzFilter m).length : ℕ) : ℚ)) := by
  intro m
  induction m with
  | nil =>
      intro total n
      cases n with
      | zero => simp [dictLoop, nzFilter]
      | succ n => simp [dictLoop, nzFilter]
  | cons p rest ih =>
      intro total n
      obtain ⟨k, ev⟩ := p
      by_cases hev : ev = 0
      · subst hev
        rw [show dictLoop (.dict am) ((k, (0 : ℚ)) :: rest) total n
            = dictLoop (.dict am) rest total n by simp [dictLoop]]
        rw [ih total n, nzFilter_cons_zero]
      · rw [show dictLoop (.dict am) ((k, ev) :: rest) total n
            = dictLoop (.dict am) rest
                (total + |(am.lookup k).getD 0 - ev| / |ev|) (n + 1) by
          simp [dictLoop, hev]]
        rw [ih _ (n + 1), nzFilter_cons_ne k ev rest hev]
        simp only [List.length_cons, List.map_cons, List.sum_cons]
        rw [if_neg (by omega), if_neg (by omega)]
        congr 1
        rw [show (n + 1 + (nzFilter rest).length : ℕ)
            = (n + ((nzFilter rest).length + 1) : ℕ) by omega]
        ring

/-- C7.  `calculate_accuracy` behaves as the claim states: for scalar
`exact ≠ 0` it reports accuracy `100·(1 - |approx-exact|/|exact|)` and
relative error `|approx-exact|/|exact|`; for scalar `exact = 0` it reports
100 %/0 % error exactly when `approx = 0` and `N/A` otherwise; an empty
exact mapping reports `N/A`; and a mapping with at least one nonzero value
reports the mean relative error over exactly the nonzero-exact keys
(`approx` keys defaulting to 0), skipping zero-exact keys. -/
theorem calculate_accuracy_spec :
    (∀ a e : ℚ, e ≠ 0 →
        calculate_accuracy (.num a) (.num e)
          = .scalarReport (100 * (1 - |a - e| / |e|)) (|a - e| / |e|)) ∧
    calculate_accuracy (.num 0) (.num 0) = .scalarReport 100 0 ∧
    (∀ a : ℚ, a ≠ 0 → calculate_accuracy (.num a) (.num 0) = .naExactZero) ∧
    (∀ approx : AVal, calculate_accuracy approx (.dict []) = .naEmptyExact) ∧
    (∀ am em : List (String × ℚ), nzFilter em ≠ [] →
        calculate_accuracy (.dict am) (.dict em)
          = .avgRelError (specMeanRelError am em)) := by
  refine ⟨?_, ?_, ?_, ?_, ?_⟩
  · intro a e he; simp [calculate_accuracy, he]
  · simp [calculate_accuracy]
  · intro a ha; simp [calculate_accuracy, ha]
  · intro approx; simp [calculate_accuracy]
  · intro am em hne
    have hem : em ≠ [] := by
      intro h; rw [h] at hne; exact hne rfl
    have hem2 : em.isEmpty = false := by
      cases em
      · exact absurd rfl hem
      · rfl
    simp only [calculate_accuracy, hem2, Bool.false_eq_true, if_false]
    rw [dictLoop_eq am em 0 0]
    have hlen : ¬ 0 + (nzFilter em).length = 0 := by
      simp only [Nat.zero_add]
      intro h
      exact hne (List.length_eq_zero.mp h)
    rw [if_neg hlen]
    unfold specMeanRelError
    norm_num

/-- Witness for `calculate_accuracy_spec`: the spec's own examples —
`compare(100, 100)` gives 100 % accuracy / 0 % error, `compare(90, 100)`
gives 90 % accuracy / 10 % error, and comparing
`{"A": 10, "B": 0}` with itself skips key `"B"` and reports mean relative
error `0`. -/
theorem calculate_accuracy_spec_witness :
    (100 : ℚ) ≠ 0 ∧
    calculate_accuracy (.num 100) (.num 100) = .scalarReport 100 0 ∧
    calculate_accuracy (.num 90) (.num 100) = .scalarReport 90 (1 / 10) ∧
    nzFilter [("A", (10 : ℚ)), ("B", 0)] ≠ [] ∧
    calculate_accuracy (.dict [("A", 10), ("B", 0)])
      (.dict [("A", 10), ("B", 0)]) = .avgRelError 0 := by
  refine ⟨by norm_num, ?_, ?_, ?_, ?_⟩
  · rw [calculate_accuracy_spec.1 100 100 (by norm_num)]; norm_num
  · rw [calculate_accuracy_spec.1 90 100 (by norm_num)]; norm_num
  · with_unfolding_all decide
  · rw [calculate_accuracy_spec.2.2.2.2 [("A", 10), ("B", 0)]
      [("A", 10), ("B", 0)] (by with_unfolding_all decide)]
    with_unfolding_all decide

lemma ddGet_lookup_some {β : Type} {d : List (String × β)} {k : String} {v : β}
    (df : β) (h : d.lookup k = some v) : ddGet d k df = (d, v) := by
  unfold ddGet; rw [h]

lemma countDistinctPath_fst (st : EngineState) (parts : List String) :
    (countDistinctPath st parts).1 = st := by
  unfold countDistinctPath
  split
  · rfl
  · split
    · rfl
    · rename_i t2 sk heq
      rw [ddGet_lookup_some (freshHLL st.hll_p) heq]
      rfl

lemma sumGroupByPath_fst (st : EngineState) (c g : String) :
    (sumGroupByPath st c g).1 = st := by
  unfold sumGroupByPath
  cases groupbySum st.sample_df g c <;> rfl

lemma sumGroupByBranch_fst (st : EngineState) (parts : List String) :
    (sumGroupByBranch st parts).1 = st := by
  unfold sumGroupByBranch
  split
  · exact sumGroupByPath_fst st _ _
  · rfl

lemma kllQuantilePath_fst (st : EngineState) (col : String) (qv : ℚ)
    (expl : String) : (kllQuantilePath st col qv expl).1 = st := by
  unfold kllQuantilePath
  split
  · rfl
  · rename_i sk heq
    rw [ddGet_lookup_some (freshKLL st.kll_k) heq]
    unfold kllAnswer
    split <;> rfl

lemma medianBranch_fst (st : EngineState) (parts : List String) :
    (medianBranch st parts).1 = st := by
  unfold medianBranch
  split
  · rfl
  · exact kllQuantilePath_fst st _ _ _

lemma quantileBranch_fst (st : EngineState) (parts : List String) :
    (quantileBranch st parts).1 = st := by
  unfold quantileBranch
  split
  · rfl
  · split
    · split
      · rfl
      · exact kllQuantilePath_fst st _ _ _
    · rfl

/-- C8.  For every engine state and every query string, `query` leaves the
engine unchanged: `total_rows`, `sample_frac`, `sample_df` and both sketch
collections (keys included) are identical before and after the call — the
`defaultdict` sketch collections are only subscripted behind an explicit
membership guard, so no query ever inserts a fresh sketch. -/
theorem query_preserves_state (st : EngineState) (q : String) :
    (FastAQE_query st q).1 = st := by
  unfold FastAQE_query
  generalize tokenize q = parts
  cases parts with
  | nil => rfl
  | cons q_type rest =>
      show (if _ then countDistinctPath st (q_type :: rest) else _).1 = st
      split
      · exact countDistinctPath_fst st _
      · split
        · exact sumGroupByBranch_fst st _
        · split
          · exact medianBranch_fst st _
          · split
            · exact quantileBranch_fst st _
            · rfl

/-- C1 (failing input, supporting the code-bug verdict).  `query` reads
`parts[0]` *before* its `try` block, so the empty and the all-whitespace
query strings make the call raise an `IndexError` to the caller instead of
returning the error-carrying result dict the spec promises. -/
theorem query_empty_raises :
    (FastAQE_query demoEngine "").2 = .raised "IndexError: list index out of range" ∧
    (FastAQE_query demoEngine "   ").2 = .raised "IndexError: list index out of range" :=
  ⟨by with_unfolding_all rfl, by with_unfolding_all rfl⟩

/-- C6, counterexample.  `"QUANTILE amount 1.5"` is parsed to `q = 1.5`
and dispatched to the column's quantile sketch with no `[0, 1]` validation:
with a sketch whose `get_quantile` is total the router returns a quantile
*answer* for `q = 1.5` (no `ParseError`), and with the real library
behaviour (raise outside `[0, 1]`) the caller sees the library's message
through the generic error path — again not a parse-time rejection. -/
theorem quantile_out_of_range_counterexample :
    tokenize "QUANTILE amount 1.5" = ["QUANTILE", "AMOUNT", "1.5"] ∧
    parseDecimal "1.5" = some (3 / 2) ∧ ¬ ((3 : ℚ) / 2 ≤ 1) ∧
    (FastAQE_query demoEngineTotal "QUANTILE amount 1.5").2
      = .ok (.num (3 / 2)) (.txt kllRankErrTxt)
          ("Query Parsed: QUANTILE on column amount. Routing Decision: Query routed to the pre-built KLL (Quantile) sketch.") ∧
    (FastAQE_query demoEngine "QUANTILE amount 1.5").2
      = .errDict "normalized rank cannot be outside the interval [0, 1]"
          ("Query Failed: the query could not be executed. Error: normalized rank cannot be outside the interval [0, 1]") :=
  ⟨by with_unfolding_all rfl, by with_unfolding_all rfl, by norm_num,
   by with_unfolding_all rfl, by with_unfolding_all rfl⟩

/-- C6, amended.  The `QUANTILE` router parses `q` as a number but performs
no `[0, 1]` validation: for every token `qtok` parsing to any `q`
(in range or not), the query is dispatched to the column's quantile sketch
at `q`, and the outcome is exactly the sketch's answer — or, when the
library call raises, its message surfaced through the generic error path
(not a parse-time rejection). -/
theorem quantile_not_range_validated (st : EngineState) (c qtok : String)
    (sk : KLLSketch) (qv : ℚ)
    (hs : st.kll_sketches.lookup (lowerStr c) = some sk)
    (hp : parseDecimal qtok = some qv) :
    (queryTokens st ["QUANTILE", c, qtok]).2
      = match sk.quantile qv with
        | .ok v => Outcome.ok (.num v) (.txt kllRankErrTxt)
            ("Query Parsed: QUANTILE on column " ++ lowerStr c ++
             ". Routing Decision: Query routed to the pre-built KLL (Quantile) sketch.")
        | .error e => Outcome.errDict e
            ("Query Failed: the query could not be executed. Error: " ++ e) := by
  show (if _ then countDistinctPath st _ else _).2 = _
  rw [if_neg (fun h => absurd h.1 (by decide)),
    if_neg (fun h => absurd h.1 (by decide)),
    if_neg (by decide), if_pos rfl]
  unfold quantileBranch
  rw [if_neg (show ¬ (["QUANTILE", c, qtok].length < 3) by simp)]
  show (match parseDecimal qtok with
    | none => errOut st ("could not convert string to float: " ++ qtok)
    | some qv => kllQuantilePath st (lowerStr c) qv
        ("Query Parsed: QUANTILE on column " ++ lowerStr c ++
         ". Routing Decision: Query routed to the pre-built KLL (Quantile) sketch.")).2 = _
  rw [hp]
  unfold kllQuantilePath
  rw [hs]
  show (kllAnswer st _ (ddGet st.kll_sketches (lowerStr c) (freshKLL st.kll_k)) qv).2 = _
  rw [ddGet_lookup_some (freshKLL st.kll_k) hs]
  unfold kllAnswer
  cases sk.quantile qv <;> rfl

/-- Witness for `quantile_not_range_validated` at the out-of-range
`q = 1.5` on `demoEngineTotal`. -/
theorem quantile_not_range_validated_witness :
    demoEngineTotal.kll_sketches.lookup (lowerStr "AMOUNT") = some demoKLLTotal ∧
    parseDecimal "1.5" = some (3 / 2) ∧
    (queryTokens demoEngineTotal ["QUANTILE", "AMOUNT", "1.5"]).2
      = .ok (.num (3 / 2)) (.txt kllRankErrTxt)
          ("Query Parsed: QUANTILE on column amount. Routing Decision: Query routed to the pre-built KLL (Quantile) sketch.") := by
  refine ⟨by with_unfolding_all rfl, by with_unfolding_all rfl, ?_⟩
  rw [quantile_not_range_validated demoEngineTotal "AMOUNT" "1.5" demoKLLTotal
    (3 / 2) (by with_unfolding_all rfl) (by with_unfolding_all rfl)]
  with_unfolding_all rfl

/-- C10.  Whenever the uppercased tokens of a query begin with `SUM` and
contain `GROUP` and `BY` anywhere (and a fifth token exists), the router
takes the SUM-GROUP-BY path with the second token (lowercased) as the
summed column and the fifth token (lowercased) as the grouping column —
tokens three and four are never compared against the literals `GROUP BY`,
so reorderings such as `SUM amount BY GROUP category` are accepted and
aggregated by the fifth token. -/
theorem sum_group_by_token_routing (st : EngineState) (parts : List String)
    (t1 t4 : String)
    (h0 : parts.head? = some "SUM") (hg : "GROUP" ∈ parts) (hb : "BY" ∈ parts)
    (h1 : parts[1]? = some t1) (h4 : parts[4]? = some t4) :
    queryTokens st parts = sumGroupByPath st (lowerStr t1) (lowerStr t4) := by
  cases parts with
  | nil => simp at h0
  | cons q_type rest =>
      have hq : q_type = "SUM" := by simpa using h0
      subst hq
      show (if ("SUM" = "COUNT" ∧ 1 < ("SUM" :: rest).length
          ∧ ("SUM" :: rest)[1]? = some "DISTINCT") then
          countDistinctPath st ("SUM" :: rest) else _) = _
      rw [if_neg (fun h => absurd h.1 (by decide)),
        if_pos (show ("SUM" : String) = "SUM" ∧ "GROUP" ∈ "SUM" :: rest
          ∧ "BY" ∈ "SUM" :: rest from ⟨rfl, hg, hb⟩)]
      unfold sumGroupByBranch
      rw [h1, h4]
      rw [if_neg (fun h => absurd h.1 (by decide))]

/-- Witness for `sum_group_by_token_routing` on the reordered query
`SUM amount BY GROUP category`. -/
theorem sum_group_by_token_routing_witness :
    tokenize "SUM amount BY GROUP category"
      = ["SUM", "AMOUNT", "BY", "GROUP", "CATEGORY"] ∧
    queryTokens demoEngine ["SUM", "AMOUNT", "BY", "GROUP", "CATEGORY"]
      = sumGroupByPath demoEngine "amount" "category" := by
  refine ⟨by with_unfolding_all rfl, ?_⟩
  rw [sum_group_by_token_routing demoEngine
    ["SUM", "AMOUNT", "BY", "GROUP", "CATEGORY"] "AMOUNT" "CATEGORY" rfl
    (by decide) (by decide) rfl rfl]
  with_unfolding_all rfl

end AQE
